import Mathlib

/-!
Verification development for a small s-expression → call-syntax compiler
(`src/compiler.js`): lexer (`getTokens`), parser (`getAbstractSyntexTree`),
transformer (`getTransformedAbstractSyntaxTree` over `traverse`) and code
generator (`getGeneratedCode`).

The JavaScript is embedded shallowly:

* Reading `input[i]` or `tokens[i]` past the end yields `undefined` in JS.
  We model a possibly-undefined character as `Option Char` and a
  possibly-undefined token lookup as `Option Token`.
* `RegExp.test` coerces its argument to a string, so `LETTERS.test(undefined)`
  tests the nine-letter string "undefined" against `/[a-z]/i` and returns
  `true`, while `NUMBERS.test(undefined)` and `WHITESPACE.test(undefined)`
  return `false`.  `value += undefined` appends the text "undefined".
* The lexer's inner scan loops and the parser's recursion can run forever /
  crash on some inputs, so they are written against a fuel parameter; `none`
  (resp. a dedicated fuel error) means the fuel ran out.  Divergence of the
  JS loop is the statement "for every fuel the run is still unfinished".
* A thrown `TypeError` is modelled as an error value of an `Except`.
-/

/-! ## Lexer (`getTokens`, src/compiler.js lines 7–80) -/

/-- The token kinds the lexer can assign: "paren", "number", "string", "name". -/
inductive TokType where
  | paren
  | number
  | string
  | name
deriving DecidableEq, Repr

/-- A token `{ type, value }`.  In the JS the `type` field can remain
`undefined` (the final fall-through push at line 73 never set it), hence
`Option TokType`. -/
structure Token where
  type : Option TokType
  value : String
deriving DecidableEq, Repr

/-- JS string coercion of a possibly-undefined character: `value += char`
appends the character itself, or the text "undefined" when `char` is
`undefined`. -/
def jsStr : Option Char → String
  | some c => String.singleton c
  | none => "undefined"

/-- `NUMBERS.test(char)` for `NUMBERS = /[0-9]/`: an actual digit character
matches; `undefined` coerces to "undefined", which has no digit. -/
def numTest : Option Char → Bool
  | some c => c.isDigit
  | none => false

/-- `LETTERS.test(char)` for `LETTERS = /[a-z]/i`: an ASCII letter matches;
`undefined` coerces to "undefined", which does contain letters a–z, so the
test is `true` past the end of the input. -/
def letterTest : Option Char → Bool
  | some c => c.isAlpha
  | none => true

/-- `WHITESPACE.test(char)` for `WHITESPACE = /\s/`, restricted to the ASCII
whitespace characters (space, tab, line feed, vertical tab, form feed,
carriage return). -/
def wsTest (c : Char) : Bool :=
  c = ' ' || c = '\t' || c = '\n' || c = '\x0b' || c = '\x0c' || c = '\r'

/-- The digit scan (lines 34–37): `while (NUMBERS.test(char)) { value += char;
char = input[++current] }`.  Past the end of the input the test is `false`,
so this loop in fact always terminates; it is still written against fuel,
uniformly with the other scans, so that it reduces definitionally
(`scanDigits_total` below shows the fuel `none` is never reached from inside
the lexer). -/
def scanDigits (input : List Char) : Nat → Nat → String →
    Option (String × Nat)
  | 0, _, _ => none
  | fuel + 1, current, value =>
    if numTest input[current]? then
      scanDigits input fuel (current + 1) (value ++ jsStr input[current]?)
    else
      some (value, current)

/-- The string scan (lines 48–54): `while (char !== '"') { value += char;
char = input[++current] }` followed by `current++` to skip the closing quote.
Entered with `current` just past the opening quote.  Past the end of the
input `char` is `undefined`, which is still `!== '"'`, so the loop keeps
appending "undefined" forever: we thread fuel and return `none` when it is
exhausted. -/
def scanString (input : List Char) : Nat → Nat → String →
    Option (String × Nat)
  | 0, _, _ => none
  | fuel + 1, current, value =>
    match input[current]? with
    | some '"' => some (value, current + 1)
    | c => scanString input fuel (current + 1) (value ++ jsStr c)

/-- The letter scan (lines 64–67): `while (LETTERS.test(char)) { value += char;
char = input[++current] }`.  Past the end of the input `LETTERS.test`
coerces `undefined` to "undefined" and matches, so the loop keeps appending
"undefined" forever: we thread fuel and return `none` when it is
exhausted. -/
def scanLetters (input : List Char) : Nat → Nat → String →
    Option (String × Nat)
  | 0, _, _ => none
  | fuel + 1, current, value =>
    let c := input[current]?
    if letterTest c then scanLetters input fuel (current + 1) (value ++ jsStr c)
    else some (value, current)

/-- The main lexer loop (lines 14–77).  The guarded `if` chain of the JS is
an `if`/`else if` chain here: the character classes (paren, whitespace,
digit, quote, letter) are pairwise disjoint, and each branch of the JS ends
in `continue` (the paren branch only sets `type`/`value` and falls through
every later test to the final push).  `none` means the fuel ran out. -/
def getTokensLoop (input : List Char) : Nat → Nat → List Token →
    Option (List Token)
  | 0, _, _ => none
  | fuel + 1, current, acc =>
    if h : current < input.length then
      let char := input[current]
      if char = '(' ∨ char = ')' then
        getTokensLoop input fuel (current + 1)
          (acc ++ [⟨some .paren, String.singleton char⟩])
      else if wsTest char then
        getTokensLoop input fuel (current + 1) acc
      else if char.isDigit then
        match scanDigits input fuel current "" with
        | none => none
        | some s => getTokensLoop input fuel s.2 (acc ++ [⟨some .number, s.1⟩])
      else if char = '"' then
        match scanString input fuel (current + 1) "" with
        | none => none
        | some s => getTokensLoop input fuel s.2 (acc ++ [⟨some .string, s.1⟩])
      else if char.isAlpha then
        match scanLetters input fuel current "" with
        | none => none
        | some s => getTokensLoop input fuel s.2 (acc ++ [⟨some .name, s.1⟩])
      else
        getTokensLoop input fuel (current + 1) (acc ++ [⟨none, ""⟩])
    else
      some acc

/-- `getTokens(input)` with fuel: `some tokens` when the JS run finishes
within the fuel, `none` when the fuel ran out (so "for every fuel, `none`"
states that the JS loop never terminates). -/
def getTokens (input : String) (fuel : Nat) : Option (List Token) :=
  getTokensLoop input.data fuel 0 []

/-! ## Parser (`getAbstractSyntexTree`, src/compiler.js lines 118–181)

The target AST node type is needed first: the transformer attaches
`_context` references (arrays of target nodes) to source nodes, so the
source node type below stores an `Option (List TNode)` context field. -/

/-- Target AST nodes (the shape produced by the transformer and consumed by
the code generator).  `other` models a node object whose `type` tag is none
of the recognized strings — the generator's `default: throw` case. -/
inductive TNode where
  | program (body : List TNode)
  | exprStmt (expression : TNode)
  | call (callee : TNode) (arguments : List TNode)
  | ident (name : String)
  | num (value : String)
  | str (value : String)
  | other (tag : String)

/-- Source AST nodes.  `ctx` is the `_context` field the transformer assigns
to `CallExpression` nodes (line 300): absent (`none`) on freshly parsed
nodes, and observed after a transform as the final contents of the target
array the JS reference aliases. -/
inductive SNode where
  | num (value : String)
  | str (value : String)
  | call (name : String) (ctx : Option (List TNode)) (params : List SNode)

/-- The source `Program` node.  `ctx` is the `_context` field assigned to the
root at line 265. -/
structure SProgram where
  ctx : Option (List TNode)
  body : List SNode

/-- Parser failures.  `undefinedAccess` is the implicit JS `TypeError` raised
by reading `.type`/`.value` of `tokens[current]` when `current` is out of
bounds (`tokens[current]` is `undefined`); `typeError t` is the explicit
`throw new TypeError(token.type)` at line 168; `fuel` is the modelling
artifact of running out of fuel. -/
inductive ParseErr where
  | undefinedAccess
  | typeError (t : Option TokType)
  | fuel
deriving DecidableEq, Repr

mutual

/-- One `walk()` call (lines 121–169).  Returns the parsed node and the new
cursor.  The `(` branch reads the following token's `value` as the call name
without checking its type, then runs the params loop from two tokens
further on. -/
def walk (tokens : List Token) : Nat → Nat → Except ParseErr (SNode × Nat)
  | 0, _ => .error .fuel
  | fuel + 1, current =>
    match tokens[current]? with
    | none => .error .undefinedAccess
    | some token =>
      if token.type = some .number then
        .ok (.num token.value, current + 1)
      else if token.type = some .string then
        .ok (.str token.value, current + 1)
      else if token.type = some .paren ∧ token.value = "(" then
        match tokens[current + 1]? with
        | none => .error .undefinedAccess
        | some nameTok =>
          (walkParams tokens fuel (current + 2) []).bind fun s =>
            .ok (.call nameTok.value none s.1, s.2)
      else
        .error (.typeError token.type)

/-- The params `while` loop of `walk` (lines 155–163): parse children until
the current token is a `)` paren, then skip it.  Re-reading `token.type` in
the loop condition crashes (`undefinedAccess`) when the cursor is out of
bounds. -/
def walkParams (tokens : List Token) : Nat → Nat → List SNode →
    Except ParseErr (List SNode × Nat)
  | 0, _, _ => .error .fuel
  | fuel + 1, current, acc =>
    match tokens[current]? with
    | none => .error .undefinedAccess
    | some token =>
      if token.type = some .paren ∧ token.value = ")" then
        .ok (acc, current + 1)
      else
        (walk tokens fuel current).bind fun n =>
          walkParams tokens fuel n.2 (acc ++ [n.1])

end

/-- The top-level loop (lines 176–178): `while (current < tokens.length)
ast.body.push(walk())`. -/
def programLoop (tokens : List Token) : Nat → Nat → List SNode →
    Except ParseErr (List SNode)
  | 0, _, _ => .error .fuel
  | fuel + 1, current, acc =>
    if current < tokens.length then
      (walk tokens fuel current).bind fun n =>
        programLoop tokens fuel n.2 (acc ++ [n.1])
    else
      .ok acc

/-- `getAbstractSyntexTree(tokens)` with fuel: the `Program` node whose body
collects the walked nodes. -/
def getAbstractSyntexTree (tokens : List Token) (fuel : Nat) :
    Except ParseErr SProgram :=
  (programLoop tokens fuel 0 []).bind fun body => .ok ⟨none, body⟩

/-! ## Transformer (`getTransformedAbstractSyntaxTree` over `traverse`,
src/compiler.js lines 189–325)

The JS pass drives `traverse` with a visitor whose `enter` handlers push
freshly built target nodes into the mutable array referenced by
`parent._context`; a `CallExpression` handler additionally stores a
reference to its own `arguments` array in `node._context` (line 300), so
its children — visited afterwards, left to right — append into it.  Since
the only mutations are pushes, in pre-order, into the context of the
immediate parent, the pass purifies to a structural recursion: a node's
target image is assembled from the images of its children, in order.  The
`_context` mutations are made explicit in the result: every function below
returns, next to the target node, the post-call state of the source node it
visited, whose `ctx` field holds the final contents of the target array the
JS reference aliases. -/

mutual

/-- The visitor's `enter` handlers (lines 268–318) at one source node.
`parentIsCall` says whether the immediate parent in the source tree is a
`CallExpression` — the sole test (line 302) deciding bare call vs
`ExpressionStatement` wrap.  Literal handlers push a copy; the call handler
builds `CallExpression{callee: Identifier{name}, arguments}`, wraps it when
the parent is not a call, and sets the source node's `_context`. -/
def transformNode : Bool → SNode → TNode × SNode
  | _, .num v => (.num v, .num v)
  | _, .str v => (.str v, .str v)
  | parentIsCall, .call name _ params =>
    let results := transformList true params
    let args := results.map Prod.fst
    let expression := TNode.call (.ident name) args
    ((if parentIsCall then expression else .exprStmt expression),
      .call name (some args) (results.map Prod.snd))

/-- `traverseArray` (lines 196–200) under the transform visitor: children are
visited left to right, each pushing into the same parent context. -/
def transformList : Bool → List SNode → List (TNode × SNode)
  | _, [] => []
  | parentIsCall, s :: ss =>
    transformNode parentIsCall s :: transformList parentIsCall ss

end

/-- One full `getTransformedAbstractSyntaxTree(ast)` call, returning both the
value the JS returns (`newAst`) and the post-call state of the source
argument: the root keeps `_context = newAst.body` (line 265) and every
source `CallExpression` keeps the `_context` set at line 300.  The body's
children are visited with `parent = Program`, so none of them counts as
having a call parent. -/
def transformRun (ast : SProgram) : TNode × SProgram :=
  let results := transformList false ast.body
  let newBody := results.map Prod.fst
  (.program newBody, ⟨some newBody, results.map Prod.snd⟩)

/-- The value returned by `getTransformedAbstractSyntaxTree(ast)`. -/
def getTransformedAbstractSyntaxTree (ast : SProgram) : TNode :=
  (transformRun ast).1

/-! ## Code generator (`getGeneratedCode`, src/compiler.js lines 332–364) -/

mutual

/-- `getGeneratedCode(node)`: recursive rendering of a target node.
`Except.error tag` models `throw new TypeError(node.type)` in the `default`
case. -/
def getGeneratedCode : TNode → Except String String
  | .program body =>
    (genAll body).bind fun rs => .ok (String.intercalate "\n" rs)
  | .exprStmt e =>
    (getGeneratedCode e).bind fun r => .ok (r ++ ";")
  | .call callee args =>
    (getGeneratedCode callee).bind fun c =>
      (genAll args).bind fun rs =>
        .ok (c ++ "(" ++ String.intercalate ", " rs ++ ")")
  | .ident name => .ok name
  | .num value => .ok value
  | .str value => .ok ("\"" ++ value ++ "\"")
  | .other tag => .error tag

/-- `array.map(getGeneratedCode)` as used at lines 336 and 347: renders each
element left to right, the first thrown `TypeError` propagating. -/
def genAll : List TNode → Except String (List String)
  | [] => .ok []
  | n :: ns =>
    (getGeneratedCode n).bind fun r =>
      (genAll ns).bind fun rs => .ok (r :: rs)

end

/-- The full pipeline (src/compiler.js lines 366–372) as a function of the
input string: tokenize, parse, transform, generate.  A lexer fuel
exhaustion surfaces as `none`; a parse error as `some (.error ...)` of the
shown shape; otherwise the generated string. -/
def compile (input : String) (fuel : Nat) :
    Option (Except ParseErr (Except String String)) :=
  (getTokens input fuel).map fun tokens =>
    (getAbstractSyntexTree tokens fuel).map fun ast =>
      getGeneratedCode (getTransformedAbstractSyntaxTree ast)

/-! ## Derived notions used by the statements -/

mutual

/-- Number of `ExpressionStatement` wrapper nodes in a whole target tree. -/
def countExprStmt : TNode → Nat
  | .program body => countExprStmtList body
  | .exprStmt e => 1 + countExprStmt e
  | .call callee args => countExprStmt callee + countExprStmtList args
  | .ident _ => 0
  | .num _ => 0
  | .str _ => 0
  | .other _ => 0

/-- Sum of `countExprStmt` over a list of target nodes. -/
def countExprStmtList : List TNode → Nat
  | [] => 0
  | n :: ns => countExprStmt n + countExprStmtList ns

end

/-- Whether a source node is a `CallExpression`. -/
def isCall : SNode → Bool
  | .call .. => true
  | _ => false

/-- The target image of one direct child of `Program.body`: a call becomes a
statement-wrapped call, a literal is copied unwrapped.  (Its agreement with
the transformer is the content of the C10 theorem.) -/
def topTarget : SNode → TNode
  | .num v => .num v
  | .str v => .str v
  | .call name _ params =>
    .exprStmt (.call (.ident name) ((transformList true params).map Prod.fst))

/-- The body of a target `Program` node (empty for any other node). -/
def targetBody : TNode → List TNode
  | .program body => body
  | _ => []

/-- The source AST of `(add 2 (subtract 4 2))`, as `getAbstractSyntexTree`
produces it. -/
def srcExample : SProgram :=
  ⟨none, [.call "add" none [.num "2", .call "subtract" none [.num "4", .num "2"]]]⟩

/-! ## Spec-side rendering relation (spec §4.5)

`Renders n s` states, following the specification's wording variant by
variant, that the target node `n` renders to the string `s`: a `Program`
renders each body element and joins them with a newline; an
`ExpressionStatement` renders the inner expression and appends `;`; a
`CallExpression` renders the callee, then `(`, the rendered arguments
joined with `, `, then `)`; `Identifier`/`NumberLiteral` render their
name/value verbatim; a `StringLiteral` wraps its value in one pair of
double quotes with no escaping.  No rule covers an unrecognized variant. -/

mutual

/-- Spec §4.5 rendering rules, one constructor per recognized variant. -/
inductive Renders : TNode → String → Prop where
  | program (body : List TNode) (ss : List String) :
    RendersList body ss → Renders (.program body) (String.intercalate "\n" ss)
  | exprStmt (e : TNode) (s : String) :
    Renders e s → Renders (.exprStmt e) (s ++ ";")
  | call (callee : TNode) (cs : String) (args : List TNode) (ss : List String) :
    Renders callee cs → RendersList args ss →
    Renders (.call callee args) (cs ++ "(" ++ String.intercalate ", " ss ++ ")")
  | ident (name : String) : Renders (.ident name) name
  | num (value : String) : Renders (.num value) value
  | str (value : String) : Renders (.str value) ("\"" ++ value ++ "\"")

/-- Pointwise rendering of a list of nodes, in order. -/
inductive RendersList : List TNode → List String → Prop where
  | nil : RendersList [] []
  | cons {n : TNode} {s : String} {ns : List TNode} {ss : List String} :
    Renders n s → RendersList ns ss → RendersList (n :: ns) (s :: ss)

end

/-! ## Helper lemmas -/

/-- The digit scan with enough fuel never runs out: it stops at the first
non-digit, at the latest at the end of the input. -/
theorem scanDigits_total (input : List Char) :
    ∀ fuel current value, input.length - current < fuel →
      (scanDigits input fuel current value).isSome := by
  intro fuel
  induction fuel with
  | zero => intro current value h; omega
  | succ f ih =>
    intro current value h
    by_cases hn : numTest input[current]?
    · have hlt : current < input.length := by
        by_contra hge
        rw [List.getElem?_eq_none (by omega)] at hn
        simp [numTest] at hn
      simp only [scanDigits, hn, if_true]
      exact ih (current + 1) (value ++ jsStr input[current]?) (by omega)
    · simp [scanDigits, hn]

/-- If every character from the scan position on (including the `undefined`
reads past the end) passes the letter test, the letter scan never stops,
whatever the fuel. -/
theorem scanLetters_none (input : List Char)
    (h : ∀ j : Nat, letterTest input[j]? = true) :
    ∀ fuel current value, scanLetters input fuel current value = none := by
  intro fuel
  induction fuel with
  | zero => intro current value; rfl
  | succ f ih =>
    intro current value
    rw [scanLetters]
    simp only [h current, if_true]
    exact ih (current + 1) _

/-- If no closing double quote occurs at or after the scan position, the
string scan never stops, whatever the fuel. -/
theorem scanString_none (input : List Char) (start : Nat)
    (h : ∀ j : Nat, start ≤ j → input[j]? ≠ some '"') :
    ∀ fuel current value, start ≤ current →
      scanString input fuel current value = none := by
  intro fuel
  induction fuel with
  | zero => intro current value _; rfl
  | succ f ih =>
    intro current value hle
    rw [scanString]
    split
    · next heq => exact absurd heq (h current hle)
    · exact ih (current + 1) _ (by omega)

/-- `traverseArray` visits the children independently, left to right. -/
theorem transformList_eq_map (parentIsCall : Bool) (l : List SNode) :
    transformList parentIsCall l = l.map (transformNode parentIsCall) := by
  induction l with
  | nil => rfl
  | cons s ss ih => rw [transformList, ih, List.map_cons]

mutual

/-- A call visited with a `CallExpression` parent is appended bare, and no
node of its target image is an `ExpressionStatement`. -/
theorem nested_no_exprStmt : ∀ s : SNode,
    countExprStmt (transformNode true s).1 = 0
  | .num _ => rfl
  | .str _ => rfl
  | .call name _ params => by
    show countExprStmt (.call (.ident name)
      ((transformList true params).map Prod.fst)) = 0
    rw [countExprStmt, countExprStmt, nested_no_exprStmtList params]

/-- List version of `nested_no_exprStmt`. -/
theorem nested_no_exprStmtList : ∀ ss : List SNode,
    countExprStmtList ((transformList true ss).map Prod.fst) = 0
  | [] => rfl
  | s :: ss => by
    rw [transformList, List.map_cons, countExprStmtList,
      nested_no_exprStmt s, nested_no_exprStmtList ss]

end

/-- The target image of a direct `Program.body` child: literals are copied,
calls are wrapped in exactly one `ExpressionStatement`. -/
theorem transformNode_top (s : SNode) :
    (transformNode false s).1 = topTarget s := by
  cases s with
  | num v => rfl
  | str v => rfl
  | call name octx params => rfl

/-- A direct `Program.body` child contributes one `ExpressionStatement` when
it is a call and none when it is a literal. -/
theorem countExprStmt_top (s : SNode) :
    countExprStmt (transformNode false s).1 = if isCall s then 1 else 0 := by
  cases s with
  | num v => rfl
  | str v => rfl
  | call name octx params =>
    show countExprStmt (.exprStmt (.call (.ident name)
      ((transformList true params).map Prod.fst))) = 1
    rw [countExprStmt, countExprStmt, countExprStmt,
      nested_no_exprStmtList params]

mutual

/-- Every successful run of the code generator renders per the spec rules. -/
theorem gen_sound : ∀ (n : TNode) (s : String),
    getGeneratedCode n = .ok s → Renders n s
  | .program body, s, h => by
    rw [getGeneratedCode] at h
    cases hb : genAll body with
    | error e => rw [hb] at h; exact absurd h (by simp [Except.bind])
    | ok rs =>
      rw [hb] at h
      cases h
      exact .program body rs (genAll_sound body rs hb)
  | .exprStmt e, s, h => by
    rw [getGeneratedCode] at h
    cases he : getGeneratedCode e with
    | error err => rw [he] at h; exact absurd h (by simp [Except.bind])
    | ok r =>
      rw [he] at h
      cases h
      exact .exprStmt e r (gen_sound e r he)
  | .call callee args, s, h => by
    rw [getGeneratedCode] at h
    cases hc : getGeneratedCode callee with
    | error err => rw [hc] at h; exact absurd h (by simp [Except.bind])
    | ok c =>
      rw [hc] at h
      cases ha : genAll args with
      | error err =>
        rw [ha] at h
        exact absurd h (by simp [Except.bind])
      | ok rs =>
        rw [ha] at h
        cases h
        exact .call callee c args rs (gen_sound callee c hc)
          (genAll_sound args rs ha)
  | .ident name, s, h => by
    cases h
    exact .ident name
  | .num value, s, h => by
    cases h
    exact .num value
  | .str value, s, h => by
    cases h
    exact .str value
  | .other tag, s, h => by
    exact absurd h (by simp [getGeneratedCode])

/-- List version of `gen_sound`. -/
theorem genAll_sound : ∀ (ns : List TNode) (ss : List String),
    genAll ns = .ok ss → RendersList ns ss
  | [], ss, h => by
    cases h
    exact .nil
  | n :: ns, ss, h => by
    rw [genAll] at h
    cases hn : getGeneratedCode n with
    | error err => rw [hn] at h; exact absurd h (by simp [Except.bind])
    | ok r =>
      rw [hn] at h
      cases hs : genAll ns with
      | error err => rw [hs] at h; exact absurd h (by simp [Except.bind])
      | ok rs =>
        rw [hs] at h
        cases h
        exact .cons (gen_sound n r hn) (genAll_sound ns rs hs)

end

mutual

/-- Every rendering per the spec rules is what the code generator returns. -/
theorem gen_complete : ∀ {n : TNode} {s : String},
    Renders n s → getGeneratedCode n = .ok s
  | _, _, .program body ss hss => by
    rw [getGeneratedCode, genAll_complete hss]
    rfl
  | _, _, .exprStmt e s hs => by
    rw [getGeneratedCode, gen_complete hs]
    rfl
  | _, _, .call callee cs args ss hc hargs => by
    rw [getGeneratedCode, gen_complete hc, genAll_complete hargs]
    rfl
  | _, _, .ident name => rfl
  | _, _, .num value => rfl
  | _, _, .str value => rfl

/-- List version of `gen_complete`. -/
theorem genAll_complete : ∀ {ns : List TNode} {ss : List String},
    RendersList ns ss → genAll ns = .ok ss
  | _, _, .nil => rfl
  | _, _, .cons hn hns => by
    rw [genAll, gen_complete hn, genAll_complete hns]
    rfl

end

/-! ## The claims -/

set_option maxHeartbeats 4000000 in
/-- C1: running the full pipeline — `getTokens`, then `getAbstractSyntexTree`,
then `getTransformedAbstractSyntaxTree`, then `getGeneratedCode` — on the
input string "(add 2 (subtract 4 2))" returns exactly the string
"add(2, subtract(4, 2));". -/
theorem c1_pipeline_on_example :
    compile "(add 2 (subtract 4 2))" 30 =
      some (.ok (.ok "add(2, subtract(4, 2));")) := rfl

/-- C2 counterexample: the input "2" lexes and parses to a `Program` whose
body has one direct child, a `NumberLiteral`; the transformed tree contains
zero `ExpressionStatement` wrappers, not one — so the wrapper count does not
equal the number of direct children of `Program.body`. -/
theorem c2_wrapper_count_counterexample :
    getTokens "2" 30 = some [⟨some .number, "2"⟩] ∧
    getAbstractSyntexTree [⟨some .number, "2"⟩] 30 = .ok ⟨none, [.num "2"]⟩ ∧
    ¬ countExprStmt (getTransformedAbstractSyntaxTree ⟨none, [.num "2"]⟩) =
        [SNode.num "2"].length :=
  ⟨rfl, rfl, by decide⟩

/-- C2 amended: for every source AST, the number of `ExpressionStatement`
wrappers in the target tree equals the number of direct children of the
source `Program.body` that are `CallExpression`s (literal children are
copied without a wrapper), and a call visited with a `CallExpression`
parent — i.e. a call appearing as an argument — contributes no
`ExpressionStatement` anywhere in its image. -/
theorem c2_wrappers_count_calls :
    ∀ (octx : Option (List TNode)) (body : List SNode),
      countExprStmt (getTransformedAbstractSyntaxTree ⟨octx, body⟩) =
        (body.filter isCall).length ∧
      ∀ s : SNode, countExprStmt (transformNode true s).1 = 0 := by
  intro octx body
  refine ⟨?_, nested_no_exprStmt⟩
  show countExprStmtList ((transformList false body).map Prod.fst) =
    (body.filter isCall).length
  induction body with
  | nil => rfl
  | cons s ss ih =>
    rw [transformList, List.map_cons, countExprStmtList, countExprStmt_top, ih]
    cases hs : isCall s
    · simp [List.filter_cons, hs]
    · simp [List.filter_cons, hs]
      omega

/-- C3: the claim says `getTokens` terminates on every input; on the input
"a" the letter scan reaches the end of the input, where `LETTERS.test`
coerces `undefined` to "undefined" and matches, so the JS loop runs forever:
for every fuel the run is still unfinished. -/
theorem c3_getTokens_diverges_on_letter_at_end :
    ∀ fuel : Nat, getTokens "a" fuel = none := by
  intro fuel
  cases fuel with
  | zero => rfl
  | succ f =>
    have hlet : ∀ j : Nat, letterTest ("a".data)[j]? = true := fun j => by
      match j with
      | 0 => rfl
      | j + 1 => rfl
    have hscan := scanLetters_none "a".data hlet f 0 ""
    have hstep : getTokensLoop "a".data (f + 1) 0 [] =
        (match scanLetters "a".data f 0 "" with
         | none => none
         | some s =>
           getTokensLoop "a".data f s.2 ([] ++ [⟨some TokType.name, s.1⟩])) :=
      rfl
    show getTokensLoop "a".data (f + 1) 0 [] = none
    rw [hstep, hscan]

/-- C4: the claim says an unterminated string is a detected fatal condition;
in the code the string scan compares `undefined !== '"'`, keeps appending
"undefined" and never stops, so on the input `"ab` (open quote, no closing
quote) `getTokens` loops forever: for every fuel the run is still
unfinished. -/
theorem c4_getTokens_diverges_on_unterminated_string :
    ∀ fuel : Nat, getTokens "\"ab" fuel = none := by
  intro fuel
  cases fuel with
  | zero => rfl
  | succ f =>
    have hnq : ∀ j : Nat, 1 ≤ j → ("\"ab".data)[j]? ≠ some '"' := by
      intro j hj
      match j with
      | 0 => omega
      | 1 => decide
      | 2 => decide
      | j + 3 => simp
    have hscan := scanString_none "\"ab".data 1 hnq f 1 "" (le_refl 1)
    have hstep : getTokensLoop "\"ab".data (f + 1) 0 [] =
        (match scanString "\"ab".data f 1 "" with
         | none => none
         | some s =>
           getTokensLoop "\"ab".data f s.2 ([] ++ [⟨some TokType.string, s.1⟩])) :=
      rfl
    show getTokensLoop "\"ab".data (f + 1) 0 [] = none
    rw [hstep, hscan]

/-- C5: the claim says the parser detects end-of-input mid-call without an
out-of-bounds read; on the tokens of "(add 2" the params loop re-reads
`tokens[current].type` with the cursor past the end — `tokens[current]` is
`undefined` and the read crashes (modelled `undefinedAccess`), exactly the
out-of-bounds access the claim rules out. -/
theorem c5_parser_oob_on_truncated_call :
    getTokens "(add 2" 30 =
      some [⟨some .paren, "("⟩, ⟨some .name, "add"⟩, ⟨some .number, "2"⟩] ∧
    getAbstractSyntexTree
      [⟨some .paren, "("⟩, ⟨some .name, "add"⟩, ⟨some .number, "2"⟩] 30 =
      .error .undefinedAccess :=
  ⟨rfl, rfl⟩

/-- C6: the claim says `(` not followed by a `Name` is the fatal
`MalformedCall` error; the code never checks the token after `(` — on the
tokens of "(2)" it silently builds `CallExpression{name: "2", params: []}`
and succeeds (no error of any kind, and the error type of the embedding has
no `MalformedCall` at all). -/
theorem c6_no_malformed_call_check :
    getTokens "(2)" 30 =
      some [⟨some .paren, "("⟩, ⟨some .number, "2"⟩, ⟨some .paren, ")"⟩] ∧
    getAbstractSyntexTree
      [⟨some .paren, "("⟩, ⟨some .number, "2"⟩, ⟨some .paren, ")"⟩] 30 =
      .ok ⟨none, [.call "2" none []]⟩ :=
  ⟨rfl, rfl⟩

/-- C7: the claim says an unrecognized character is a fatal
`UnrecognizedCharacter` error; the code instead pushes a token whose `type`
was never assigned (`undefined`) and keeps lexing: on "+)" it returns the
undefined-kind token followed by the paren token. -/
theorem c7_unrecognized_char_emits_undefined_token :
    getTokens "+)" 30 = some [⟨none, ""⟩, ⟨some .paren, ")"⟩] := rfl

/-- C8: `getGeneratedCode` renders every variant per the reference rules —
its successful runs are exactly the renderings derivable from the spec's
per-variant rules (`Renders`), and an unrecognized variant is the fatal
`TypeError` carrying the tag. -/
theorem c8_generator_matches_spec_rules :
    (∀ (n : TNode) (s : String), getGeneratedCode n = .ok s ↔ Renders n s) ∧
    (∀ tag : String, getGeneratedCode (.other tag) = .error tag) :=
  ⟨fun n s => ⟨gen_sound n s, gen_complete⟩, fun _ => rfl⟩

/-- C9: the claim says the source AST is observably unchanged after the call
and no per-node context reference is left attached; on the example AST the
returned post-call source carries `_context` on the root (aliasing exactly
the target program body) and so differs from the source that was passed
in. -/
theorem c9_context_left_attached :
    (transformRun srcExample).2.ctx =
      some (targetBody (getTransformedAbstractSyntaxTree srcExample)) ∧
    (transformRun srcExample).2 ≠ srcExample :=
  ⟨rfl, fun h =>
    absurd (congrArg (fun p => p.ctx.isSome) h) (by decide)⟩

/-- C10: the target `Program.body` has exactly the length of the source
`Program.body`, and its i-th entry is derived from the i-th source entry in
order: a call becomes a statement-wrapped call, a literal is copied
unwrapped (`topTarget`). -/
theorem c10_body_pointwise :
    ∀ (octx : Option (List TNode)) (body : List SNode),
      (targetBody (getTransformedAbstractSyntaxTree ⟨octx, body⟩)).length =
        body.length ∧
      ∀ i : Nat,
        (targetBody (getTransformedAbstractSyntaxTree ⟨octx, body⟩))[i]? =
          (body[i]?).map topTarget := by
  intro octx body
  have hbody : targetBody (getTransformedAbstractSyntaxTree ⟨octx, body⟩) =
      body.map topTarget := by
    show (transformList false body).map Prod.fst = body.map topTarget
    rw [transformList_eq_map, List.map_map]
    exact List.map_congr_left fun s _ => transformNode_top s
  refine ⟨?_, ?_⟩
  · rw [hbody, List.length_map]
  · intro i
    rw [hbody, List.getElem?_map]
